import Mathlib

/-!
Verification of the eezycourt text-analysis core: a shallow embedding of
the verdict-synthesis parser `parseVerdictFromResult`
(`DisputeOrchestrator.ts`) and of the document extractors
(`analyzeLegalDocument` and its helpers in `mcp/server.ts`).

Strings are modelled as `List Char` (JavaScript strings of the inputs at
hand are ASCII, so `.length`, case folding and whitespace agree with the
JS semantics).  Each JS regular expression is embedded as an explicit
backtracking matcher built from a handful of combinators: ordered
alternation of literals (`altsCI`), greedy and lazy repetition
(`plusGreedy`, `starGreedy`, `plusLazy`), and a leftmost-match driver
(`scanFirst`) respectively a global-flag driver (`scanAll`).
-/

abbrev Str := List Char

/-- Shorthand for embedding a literal JS string. -/
def lit (s : String) : Str := s.data

/-- JS `toLowerCase` / the case folding used by the `i` regex flag. -/
def lowerStr (s : Str) : Str := s.map Char.toLower

/-- Case-sensitive: does `p` occur at the head of `s`? -/
def isPrefixB : Str → Str → Bool
  | [], _ => true
  | _ :: _, [] => false
  | p :: ps, c :: cs => p == c && isPrefixB ps cs

/-- Case-insensitive prefix test (regex `i` flag). -/
def isPrefixCIB : Str → Str → Bool
  | [], _ => true
  | _ :: _, [] => false
  | p :: ps, c :: cs => p.toLower == c.toLower && isPrefixCIB ps cs

/-- Does `p` occur as a contiguous substring of the second argument?
Embeds JS `String.includes` (on already case-normalised arguments). -/
def occursIn (p : Str) : Str → Bool
  | [] => p.isEmpty
  | c :: rest => isPrefixB p (c :: rest) || occursIn p rest

/-- Embeds the JS test `/pat/i.test t` for a literal pattern `pat`. -/
def testCI (t : Str) (pat : String) : Bool :=
  occursIn (lowerStr pat.data) (lowerStr t)

/-- JS `String.trim`. -/
def trimStr (s : Str) : Str :=
  ((s.dropWhile Char.isWhitespace).reverse.dropWhile Char.isWhitespace).reverse

/-- The sentence-terminator class `[.!?]`. -/
def punctB (c : Char) : Bool := c == '.' || c == '!' || c == '?'

def notPunctB (c : Char) : Bool := !punctB c

/-- JS `\s`. -/
def wsp (c : Char) : Bool := c.isWhitespace

/-- The class `[:\s]`. -/
def colonWs (c : Char) : Bool := c == ':' || c.isWhitespace

/-- What JS `.` (no `s` flag) refuses to match. -/
def notNL (c : Char) : Bool := !(c == '\n' || c == '\r')

mutual

/-- `splitPunctAux acc s`: accumulate the current segment (reversed in
`acc`) while walking `s`; a `[.!?]` char ends the segment. -/
def splitPunctAux : Str → Str → List Str
  | acc, [] => [acc.reverse]
  | acc, c :: rest =>
    if punctB c then acc.reverse :: splitPunctRun rest
    else splitPunctAux (c :: acc) rest

/-- Skip the remainder of a maximal `[.!?]+` run, then continue. -/
def splitPunctRun : Str → List Str
  | [] => [[]]
  | c :: rest =>
    if punctB c then splitPunctRun rest
    else splitPunctAux [c] rest

end

/-- JS `s.split(/[.!?]+/)`: split on maximal runs of sentence
terminators (delimiters are dropped; a leading/trailing run produces an
empty segment, exactly as in JS). -/
def splitPunct (s : Str) : List Str := splitPunctAux [] s

-- Regex combinators ---------------------------------------------------------

/-- Consume the literal `lit` case-insensitively at the head of `s`. -/
def stripLitCI (l : Str) (s : Str) : Option Str :=
  if isPrefixCIB l s then some (s.drop l.length) else none

/-- Ordered alternation of case-insensitive literals with backtracking:
try each literal in order, running the continuation after it; the first
alternative whose continuation succeeds wins (JS alternation). -/
def altsCI {α : Type} (lits : List Str) (s : Str) (cont : Str → Option α) : Option α :=
  match lits with
  | [] => none
  | l :: ls =>
    match stripLitCI l s with
    | some r =>
      match cont r with
      | some a => some a
      | none => altsCI ls s cont
    | none => altsCI ls s cont

/-- Greedy optional literal (`X?` for a literal `X`): prefer consuming it. -/
def optLitCI {α : Type} (l : Str) (s : Str) (cont : Str → Option α) : Option α :=
  match stripLitCI l s with
  | some r =>
    match cont r with
    | some a => some a
    | none => cont s
  | none => cont s

/-- Greedy `X+` for a character class: try the longest possible run of
class characters first, backtracking down to one. -/
def plusGreedy {α : Type} (cls : Char → Bool) (s : Str) (cont : Str → Option α) : Option α :=
  (((List.range (s.takeWhile cls).length).map (· + 1)).reverse).findSome? fun n =>
    cont (s.drop n)

/-- Greedy `X*`: longest run first, down to zero. -/
def starGreedy {α : Type} (cls : Char → Bool) (s : Str) (cont : Str → Option α) : Option α :=
  ((List.range ((s.takeWhile cls).length + 1)).reverse).findSome? fun n =>
    cont (s.drop n)

/-- Lazy `X+?`: try the shortest nonempty run of class characters first. -/
def plusLazy {α : Type} (cls : Char → Bool) (s : Str) (cont : Str → Option α) : Option α :=
  ((List.range (s.takeWhile cls).length).map (· + 1)).findSome? fun n =>
    cont (s.drop n)

/-- Leftmost match: run the position matcher at offsets 0, 1, 2, … and
return the first success (JS `String.match` without the `g` flag). -/
def scanFirst {α : Type} (m : Str → Option α) : Str → Option α
  | [] => m []
  | c :: rest =>
    match m (c :: rest) with
    | some a => some a
    | none => scanFirst m rest

/-- All matches with the `g` flag: after a match of length `len`,
continue scanning right after it (our patterns never match the empty
string; `max len 1` only guards termination). -/
def scanAllAux {α : Type} (m : Str → Option (Nat × α)) : Nat → Str → List α
  | 0, _ => []
  | _ + 1, [] => []
  | fuel + 1, c :: rest =>
    match m (c :: rest) with
    | some (len, a) => a :: scanAllAux m fuel ((c :: rest).drop (max len 1))
    | none => scanAllAux m fuel rest

def scanAll {α : Type} (m : Str → Option (Nat × α)) (s : Str) : List α :=
  scanAllAux m s.length s

-- Capture-to-first-stop helper for the lazy `([\s\S]*?)(?=STOP|$)` groups ----

/-- Shortest prefix of `s` whose remainder satisfies `stop`; with `stop`
true at the end of input this is total (the `$` lookahead alternative). -/
def lazyUntil (stop : Str → Bool) : Str → Str
  | [] => []
  | c :: rest => if stop (c :: rest) then [] else c :: lazyUntil stop rest

-- `parseVerdictFromResult` (DisputeOrchestrator.ts) -------------------------

structure VerdictResult where
  verdict : Str
  reasoning : Str
  recommendations : List Str
  confidence : Str
deriving DecidableEq, Repr

/-- The fallback verdict returned when `result.length > 100` fails. -/
def fallbackVerdictResult : VerdictResult where
  verdict := lit "Further Review Required"
  reasoning := lit "The AI analysis has been completed. The dispute involves complex legal issues that require detailed examination of the submitted documents. Both parties have presented their positions, and a thorough evaluation of evidence, contractual obligations, and applicable laws is needed."
  recommendations :=
    [lit "Conduct detailed review of all submitted evidence",
     lit "Verify authenticity of documents",
     lit "Consider mediation or settlement options",
     lit "Consult legal precedents for similar cases",
     lit "Ensure compliance with jurisdictional requirements"]
  confidence := lit "Requires Human Expert Review"

-- /(?:the court|this court|court)\s+(?:finds|rules|orders|concludes|determines)[^.!?]*[.!?]/i

def courtHeads : List Str := [lit "the court", lit "this court", lit "court"]

def courtVerbs : List Str :=
  [lit "finds", lit "rules", lit "orders", lit "concludes", lit "determines"]

def courtFindsAt (s : Str) : Option Str :=
  altsCI courtHeads s fun r1 =>
  plusGreedy wsp r1 fun r2 =>
  altsCI courtVerbs r2 fun r3 =>
  starGreedy notPunctB r3 fun r4 =>
  match r4 with
  | c :: r5 => if punctB c then some (s.take (s.length - r5.length)) else none
  | [] => none

def courtFindsMatch (s : Str) : Option Str := scanFirst courtFindsAt s

-- /(?:FINAL DECISION|Final Decision|CONCLUSION|Conclusion)[:\s]+([\s\S]*?)(?=\n\n|$)/i

def finalDecisionLabels : List Str :=
  [lit "FINAL DECISION", lit "Final Decision", lit "CONCLUSION", lit "Conclusion"]

def finalDecisionStop (r : Str) : Bool := isPrefixB (lit "\n\n") r || r.isEmpty

def finalDecisionAt (s : Str) : Option Str :=
  altsCI finalDecisionLabels s fun r1 =>
  plusGreedy colonWs r1 fun r2 =>
  some (lazyUntil finalDecisionStop r2)

def finalDecisionMatch (s : Str) : Option Str := scanFirst finalDecisionAt s

-- /(claim|claims|relief|motion|request).{0,100}(GRANTED|granted|DENIED|denied
--   |PARTIALLY GRANTED|partially granted|is granted|are granted|is denied|are denied)/i

def claimWords : List Str :=
  [lit "claim", lit "claims", lit "relief", lit "motion", lit "request"]

def grantWords : List Str :=
  [lit "GRANTED", lit "granted", lit "DENIED", lit "denied", lit "PARTIALLY GRANTED",
   lit "partially granted", lit "is granted", lit "are granted", lit "is denied",
   lit "are denied"]

def claimGrantedAt (s : Str) : Option Str :=
  altsCI claimWords s fun r1 =>
  ((List.range (min 100 (r1.takeWhile notNL).length + 1)).reverse).findSome? fun k =>
    altsCI grantWords (r1.drop k) fun r2 =>
    some (s.take (s.length - r2.length))

def claimGrantedMatch (s : Str) : Option Str := scanFirst claimGrantedAt s

-- /(?:rule|ruling|rules|ruled)\s+in\s+favor\s+of\s+([^.!?]+)[.!?]/i

def ruleForms : List Str := [lit "rule", lit "ruling", lit "rules", lit "ruled"]

def ruleInFavorAt (s : Str) : Option Str :=
  altsCI ruleForms s fun r1 =>
  plusGreedy wsp r1 fun r2 =>
  (stripLitCI (lit "in") r2).bind fun r3 =>
  plusGreedy wsp r3 fun r4 =>
  (stripLitCI (lit "favor") r4).bind fun r5 =>
  plusGreedy wsp r5 fun r6 =>
  (stripLitCI (lit "of") r6).bind fun r7 =>
  plusGreedy wsp r7 fun r8 =>
  plusGreedy notPunctB r8 fun r9 =>
  match r9 with
  | c :: r10 => if punctB c then some (s.take (s.length - r10.length)) else none
  | [] => none

def ruleInFavorMatch (s : Str) : Option Str := scanFirst ruleInFavorAt s

-- /(?:COURT ORDERS|Court Orders|ORDERS|Orders)[:\s]+([\s\S]*?)
--   (?=\n\n###|REMEDIES|Remedies|FINAL|$)/i

def ordersLabels : List Str :=
  [lit "COURT ORDERS", lit "Court Orders", lit "ORDERS", lit "Orders"]

def ordersStop (r : Str) : Bool :=
  isPrefixB (lit "\n\n###") r || isPrefixCIB (lit "REMEDIES") r ||
    isPrefixCIB (lit "Remedies") r || isPrefixCIB (lit "FINAL") r || r.isEmpty

def ordersAt (s : Str) : Option Str :=
  altsCI ordersLabels s fun r1 =>
  plusGreedy colonWs r1 fun r2 =>
  some (lazyUntil ordersStop r2)

def ordersMatch (s : Str) : Option Str := scanFirst ordersAt s

-- /(?:REMEDIES|Remedies)[:\s]+([\s\S]*?)(?=\n\n###|FINAL|$)/i

def remediesLabels : List Str := [lit "REMEDIES", lit "Remedies"]

def remediesStop (r : Str) : Bool :=
  isPrefixB (lit "\n\n###") r || isPrefixCIB (lit "FINAL") r || r.isEmpty

def remediesAt (s : Str) : Option Str :=
  altsCI remediesLabels s fun r1 =>
  plusGreedy colonWs r1 fun r2 =>
  some (lazyUntil remediesStop r2)

def remediesMatch (s : Str) : Option Str := scanFirst remediesAt s

-- /[-•✓\d]+\.?\s+([^\n]+)/g  (bullet lines of a section body)

def bulletMark (c : Char) : Bool := c == '-' || c == '•' || c == '✓' || c.isDigit

def bulletAt (s : Str) : Option (Nat × Str) :=
  plusGreedy bulletMark s fun r1 =>
  optLitCI (lit ".") r1 fun r2 =>
  plusGreedy wsp r2 fun r3 =>
  let cap := r3.takeWhile fun c => !(c == '\n')
  if cap.isEmpty then none
  else
    let rest := r3.drop cap.length
    some (s.length - rest.length, s.take (s.length - rest.length))

def bulletMatches (txt : Str) : List Str := scanAll bulletAt txt

/-- JS `item.replace(/^[-•✓\d]+\.?\s+/, '')`. -/
def stripMarker (item : Str) : Str :=
  match (plusGreedy bulletMark item fun r1 =>
         optLitCI (lit ".") r1 fun r2 =>
         plusGreedy wsp r2 fun r3 => some r3 : Option Str) with
  | some r => r
  | none => item

/-- The Orders-section pass: up to 4 bullets, cleaned, kept if longer
than 10 characters. -/
def ordersRecs (result : Str) : List Str :=
  match ordersMatch result with
  | none => []
  | some ordersText =>
    ((bulletMatches ordersText).take 4).foldl
      (fun acc item =>
        let cleaned := trimStr (stripMarker item)
        if 10 < cleaned.length then acc ++ [cleaned] else acc) []

/-- The Remedies-section pass (run only when fewer than 3 entries so
far): up to 3 bullets, cleaned, kept if longer than 10 characters and
not already present. -/
def remediesAppend (result : Str) (recs : List Str) : List Str :=
  match remediesMatch result with
  | none => recs
  | some remediesText =>
    ((bulletMatches remediesText).take 3).foldl
      (fun acc item =>
        let cleaned := trimStr (stripMarker item)
        if 10 < cleaned.length && !(acc.contains cleaned) then acc ++ [cleaned] else acc)
      recs

-- /(?:shall|must|should|ordered to)[^.!?]*[.!?]/gi

def actionWords : List Str := [lit "shall", lit "must", lit "should", lit "ordered to"]

def actionAt (s : Str) : Option (Nat × Str) :=
  altsCI actionWords s fun r1 =>
  starGreedy notPunctB r1 fun r2 =>
  match r2 with
  | c :: r3 => if punctB c then some (s.length - r3.length, s.take (s.length - r3.length)) else none
  | [] => none

def actionMatches (result : Str) : List Str := scanAll actionAt result

/-- The shall/must/should/ordered-to pass (run only when no entries so
far): up to 4 clauses, trimmed, kept if the length is in (15, 200). -/
def actionRecs (result : Str) : List Str :=
  ((actionMatches result).take 4).foldl
    (fun acc action =>
      let cleaned := trimStr action
      if 15 < cleaned.length && cleaned.length < 200 then acc ++ [cleaned] else acc) []

/-- The default recommendations substituted when every pass came up empty. -/
def defaultRecommendations : List Str :=
  [lit "Review all submitted documents carefully",
   lit "Consider contractual obligations and evidence quality",
   lit "Consult with legal professionals for final decision",
   lit "Ensure all parties have been heard fairly"]

def computeRecommendations (result : Str) : List Str :=
  let recs0 := ordersRecs result
  let recs1 := if recs0.length < 3 then remediesAppend result recs0 else recs0
  let recs2 := if recs1.length = 0 then actionRecs result else recs1
  let recs3 := if recs2.length = 0 then defaultRecommendations else recs2
  recs3.take 6

-- /(?:CONFIDENCE|Confidence|CONFIDENCE LEVEL)[:\s]+(.*?)(?:\n|$)/i

def confidenceLabels : List Str :=
  [lit "CONFIDENCE", lit "Confidence", lit "CONFIDENCE LEVEL"]

def confidenceStop (r : Str) : Bool := isPrefixB (lit "\n") r || r.isEmpty

def confidenceAt (s : Str) : Option Str :=
  altsCI confidenceLabels s fun r1 =>
  plusGreedy colonWs r1 fun r2 =>
  some (lazyUntil confidenceStop r2)

def confidenceMatch (s : Str) : Option Str := scanFirst confidenceAt s

def confidenceFallback (result : Str) : Str :=
  if testCI result "strong evidence" || testCI result "clear breach" ||
      testCI result "unambiguous" || testCI result "definitive" then
    lit "High - Strong Evidence and Clear Legal Basis"
  else if testCI result "insufficient" || testCI result "unclear" ||
      testCI result "requires further" || testCI result "disputed facts" then
    lit "Low - Requires Additional Evidence or Review"
  else lit "Medium - AI Analysis Complete"

def computeConfidence (result : Str) : Str :=
  match confidenceMatch result with
  | some g => if (trimStr g).isEmpty then confidenceFallback result else trimStr g
  | none => confidenceFallback result

/-- The first-sentence fallback (the final `else` of the verdict
extraction chain). -/
def elseBranchVerdict (result : Str) : Str :=
  let sentences := (splitPunct result).filter fun t => 40 < (trimStr t).length
  match sentences with
  | [] => lit "Judicial Recommendation Provided"
  | s1 :: _ =>
    match sentences.find? (fun t =>
      testCI t "court" || testCI t "ruling" || testCI t "decision" || testCI t "granted" ||
        testCI t "denied" || testCI t "favor" || testCI t "dismiss" || testCI t "order" ||
        testCI t "conclude" || testCI t "find") with
    | some v => trimStr v
    | none => trimStr s1

/-- The verdict-statement extraction chain, in source priority order:
court-finds, rule-in-favor, claim-granted, Final-Decision section,
first-substantive-sentence fallback. -/
def computeVerdict (result : Str) : Str :=
  match courtFindsMatch result with
  | some m => trimStr m
  | none =>
  match ruleInFavorMatch result with
  | some m => trimStr m
  | none =>
  match claimGrantedMatch result with
  | some claimText =>
    if (testCI claimText "is granted" || testCI claimText "are granted" ||
        testCI claimText "GRANTED") && !(testCI claimText "denied") then
      lit "Claims GRANTED - " ++ trimStr (claimText.take 100)
    else if testCI claimText "is denied" || testCI claimText "are denied" ||
        testCI claimText "DENIED" then
      lit "Claims DENIED - " ++ trimStr (claimText.take 100)
    else if testCI claimText "PARTIALLY GRANTED" || testCI claimText "partially granted" then
      lit "Claims PARTIALLY GRANTED - " ++ trimStr (claimText.take 100)
    else lit "Judicial Recommendation Provided"
  | none =>
  match finalDecisionMatch result with
  | some g =>
    if 20 < (trimStr g).length then
      let decisionText := trimStr g
      let sentences := (splitPunct decisionText).filter fun t => 20 < (trimStr t).length
      match sentences with
      | [] => lit "Judicial Recommendation Provided"
      | s1 :: rest =>
        match rest with
        | s2 :: _ =>
          if s2.length < 120 then trimStr s1 ++ lit ". " ++ trimStr s2 else trimStr s1
        | [] => trimStr s1
    else elseBranchVerdict result
  | none => elseBranchVerdict result

/-- `DisputeOrchestrator.parseVerdictFromResult` — the spec's
`synthesize`.  The `result.length > 100` gate mirrors `hasAnalysis`. -/
def parseVerdictFromResult (result : Str) : VerdictResult :=
  if 100 < result.length then
    { verdict := computeVerdict result
      reasoning := result
      recommendations := computeRecommendations result
      confidence := computeConfidence result }
  else fallbackVerdictResult

-- `analyzeLegalDocument` and helpers (mcp/server.ts) ------------------------

structure DocumentAnalysis where
  documentType : Str
  parties : List Str
  keyPoints : List Str
  evidence : List Str
  claims : List Str
deriving DecidableEq, Repr

/-- `detectDocumentType`: ordered lower-cased containment checks. -/
def detectDocumentType (text : Str) : Str :=
  let lowerText := lowerStr text
  if occursIn (lit "complaint") lowerText || occursIn (lit "petition") lowerText then
    lit "Complaint/Petition"
  else if occursIn (lit "response") lowerText || occursIn (lit "answer") lowerText then
    lit "Response/Answer"
  else if occursIn (lit "contract") lowerText || occursIn (lit "agreement") lowerText then
    lit "Contract/Agreement"
  else if occursIn (lit "evidence") lowerText || occursIn (lit "exhibit") lowerText then
    lit "Evidence/Exhibit"
  else lit "General Legal Document"

-- The party-name capture class [a-zA-Z\s&.,]; [A-Z] under the i flag is
-- any ASCII letter.

def partyClass (c : Char) : Bool :=
  c.isAlpha || c.isWhitespace || c == '&' || c == '.' || c == ','

-- /(?:plaintiff|claimant|petitioner)[:\s]+([A-Z][a-zA-Z\s&.,]+?)(?:\n|vs\.|v\.|,)/gi

def party1At (s : Str) : Option (Nat × List Str) :=
  altsCI [lit "plaintiff", lit "claimant", lit "petitioner"] s fun r1 =>
  plusGreedy colonWs r1 fun r2 =>
  match r2 with
  | c :: r3 =>
    if c.isAlpha then
      plusLazy partyClass r3 fun r4 =>
      altsCI [lit "\n", lit "vs.", lit "v.", lit ","] r4 fun r5 =>
      some (s.length - r5.length, [r2.take (r2.length - r4.length)])
    else none
  | [] => none

-- /(?:defendant|respondent)[:\s]+([A-Z][a-zA-Z\s&.,]+?)(?:\n|,)/gi

def party2At (s : Str) : Option (Nat × List Str) :=
  altsCI [lit "defendant", lit "respondent"] s fun r1 =>
  plusGreedy colonWs r1 fun r2 =>
  match r2 with
  | c :: r3 =>
    if c.isAlpha then
      plusLazy partyClass r3 fun r4 =>
      altsCI [lit "\n", lit ","] r4 fun r5 =>
      some (s.length - r5.length, [r2.take (r2.length - r4.length)])
    else none
  | [] => none

-- /between\s+([A-Z][a-zA-Z\s&.,]+?)\s+and\s+([A-Z][a-zA-Z\s&.,]+?)(?:\n|,)/gi

def party3At (s : Str) : Option (Nat × List Str) :=
  (stripLitCI (lit "between") s).bind fun r1 =>
  plusGreedy wsp r1 fun r2 =>
  match r2 with
  | c :: r3 =>
    if c.isAlpha then
      plusLazy partyClass r3 fun r4 =>
      plusGreedy wsp r4 fun r5 =>
      (stripLitCI (lit "and") r5).bind fun r6 =>
      plusGreedy wsp r6 fun r7 =>
      match r7 with
      | d :: r8 =>
        if d.isAlpha then
          plusLazy partyClass r8 fun r9 =>
          altsCI [lit "\n", lit ","] r9 fun r10 =>
          some (s.length - r10.length,
                [r2.take (r2.length - r4.length), r7.take (r7.length - r9.length)])
        else none
      | [] => none
    else none
  | [] => none

/-- Push every capture group of one match, trimmed, if its length is in
(2, 100) — the loop body of `extractParties`. -/
def partyFilterPush (acc : List Str) (caps : List Str) : List Str :=
  caps.foldl (fun a g =>
    let party := trimStr g
    if 2 < party.length && party.length < 100 then a ++ [party] else a) acc

/-- JS `[...new Set(xs)]`: deduplicate keeping first occurrences. -/
def dedupKeepFirst (l : List Str) : List Str :=
  l.foldl (fun acc x => if acc.contains x then acc else acc ++ [x]) []

def extractParties (text : Str) : List Str :=
  let ps := (scanAll party1At text).foldl partyFilterPush []
  let ps := (scanAll party2At text).foldl partyFilterPush ps
  let ps := (scanAll party3At text).foldl partyFilterPush ps
  dedupKeepFirst ps

def keyPointKeywords : List Str :=
  [lit "breach", lit "violated", lit "damages", lit "compensation", lit "liable",
   lit "obligation", lit "failed", lit "duty", lit "negligent", lit "contract"]

def extractKeyPoints (text : Str) : List Str :=
  let sentences := splitPunct text
  (sentences.foldl (fun points sentence =>
    let trimmed := trimStr sentence
    if 30 < trimmed.length &&
        keyPointKeywords.any (fun k => occursIn k (lowerStr trimmed)) then
      points ++ [trimmed]
    else points) []).take 10

-- /(?:exhibit|evidence|document)[:\s]+([A-Z0-9][^\n.]+)/gi

def evid1At (s : Str) : Option (Nat × Str) :=
  altsCI [lit "exhibit", lit "evidence", lit "document"] s fun r1 =>
  plusGreedy colonWs r1 fun r2 =>
  match r2 with
  | c :: r3 =>
    if c.isAlpha || c.isDigit then
      let tail := r3.takeWhile fun d => !(d == '\n' || d == '.')
      if tail.isEmpty then none
      else some (s.length - (r3.drop tail.length).length, c :: tail)
    else none
  | [] => none

-- /(?:attached|enclosed|herewith)[:\s]+([A-Z][^\n.]+)/gi

def evid2At (s : Str) : Option (Nat × Str) :=
  altsCI [lit "attached", lit "enclosed", lit "herewith"] s fun r1 =>
  plusGreedy colonWs r1 fun r2 =>
  match r2 with
  | c :: r3 =>
    if c.isAlpha then
      let tail := r3.takeWhile fun d => !(d == '\n' || d == '.')
      if tail.isEmpty then none
      else some (s.length - (r3.drop tail.length).length, c :: tail)
    else none
  | [] => none

def extractEvidence (text : Str) : List Str :=
  let step := fun (acc : List Str) (cap : Str) =>
    if cap.length < 200 then acc ++ [trimStr cap] else acc
  let ev := (scanAll evid1At text).foldl step []
  let ev := (scanAll evid2At text).foldl step ev
  (dedupKeepFirst ev).take 10

-- /(?:claim|allege|assert)[s]?[:\s]+([^.!?]+[.!?])/gi

def claims1At (s : Str) : Option (Nat × Str) :=
  altsCI [lit "claim", lit "allege", lit "assert"] s fun r1 =>
  optLitCI (lit "s") r1 fun r2 =>
  plusGreedy colonWs r2 fun r3 =>
  plusGreedy notPunctB r3 fun r4 =>
  match r4 with
  | c :: r5 =>
    if punctB c then some (s.length - r5.length, r3.take (r3.length - r4.length) ++ [c])
    else none
  | [] => none

-- /(?:plaintiff|claimant|defendant|respondent)\s+(?:claims|alleges|asserts)\s+([^.!?]+[.!?])/gi

def claims2At (s : Str) : Option (Nat × Str) :=
  altsCI [lit "plaintiff", lit "claimant", lit "defendant", lit "respondent"] s fun r1 =>
  plusGreedy wsp r1 fun r2 =>
  altsCI [lit "claims", lit "alleges", lit "asserts"] r2 fun r3 =>
  plusGreedy wsp r3 fun r4 =>
  plusGreedy notPunctB r4 fun r5 =>
  match r5 with
  | c :: r6 =>
    if punctB c then some (s.length - r6.length, r4.take (r4.length - r5.length) ++ [c])
    else none
  | [] => none

def extractClaims (text : Str) : List Str :=
  let step := fun (acc : List Str) (cap : Str) =>
    if 20 < cap.length && cap.length < 500 then acc ++ [trimStr cap] else acc
  let cs := (scanAll claims1At text).foldl step []
  let cs := (scanAll claims2At text).foldl step cs
  (dedupKeepFirst cs).take 10

/-- `analyzeLegalDocument` (the analysis record it builds; the
`documentName` is only echoed into the JSON wrapper, not analysed). -/
def analyzeLegalDocument (documentText : Str) : DocumentAnalysis where
  documentType := detectDocumentType documentText
  parties := extractParties documentText
  keyPoints := extractKeyPoints documentText
  evidence := extractEvidence documentText
  claims := extractClaims documentText

-- Concrete narratives and documents used to instantiate the theorems --------

/-- Scenario A of the spec, verbatim (88 characters). -/
def scenarioA : Str :=
  lit "The court finds that the defendant breached the agreement and orders payment of damages."

/-- Scenario A's sentence inside a narrative that passes the 100-character
gate (138 characters). -/
def scenarioAPadded : Str :=
  scenarioA ++ lit " Payment is due within thirty days of this ruling."

/-- A 50-character text containing both a court-finds sentence and a
rule-in-favor sentence. -/
def shortBothNarrative : Str := lit "The court finds for Acme. I rule in favor of Acme."

/-- A long narrative containing both a court-finds sentence and a
rule-in-favor sentence (168 characters). -/
def courtRuleNarrative : Str :=
  lit "After reviewing the extensive written submissions of both sides, the court finds that the agreement was breached. I would rule in favor of the plaintiff on this record."

/-- A long narrative whose only verdict pattern is a grant/deny span
(146 characters). -/
def claimsDeniedNarrative : Str :=
  lit "After careful consideration of the submitted evidence and the contractual record presented by both sides, the claims are denied in their entirety."

/-- A 108-character narrative whose Orders section repeats a bullet. -/
def ordersDupNarrative : Str :=
  lit "### Court Orders:\n- Defendant shall pay the plaintiff promptly\n- Defendant shall pay the plaintiff promptly\n"

/-- A narrative whose Remedies section repeats a bullet. -/
def remediesDupNarrative : Str :=
  lit "### Remedies:\n- Defendant shall pay the plaintiff promptly\n- Defendant shall pay the plaintiff promptly\n"

/-- 110 characters matching none of the extraction patterns. -/
def plainNarrative : Str := List.replicate 110 'x'

/-- A narrative below the fallback gate. -/
def shortNarrative : Str := lit "Too short."

/-- Scenario C of the spec, verbatim. -/
def scenarioC : Str :=
  lit "Plaintiff: Acme Corp. Defendant: Beta LLC. Acme alleges Beta breached the supply contract causing $50,000 in damages."

/-- Scenario C with newline-separated party labels, which the party
patterns can terminate on. -/
def scenarioCNewlines : Str :=
  lit "Plaintiff: Acme Corp\nDefendant: Beta LLC\nAcme alleges Beta breached the supply contract causing $50,000 in damages."

-- Structural lemmas about the matchers ---------------------------------------

theorem lowerStr_cons (c : Char) (t : Str) : lowerStr (c :: t) = c.toLower :: lowerStr t := rfl

theorem lowerStr_append (a b : Str) : lowerStr (a ++ b) = lowerStr a ++ lowerStr b :=
  List.map_append _ a b

theorem takeWhile_length_le (p : Char → Bool) : ∀ s : Str, (s.takeWhile p).length ≤ s.length := by
  intro s
  induction s with
  | nil => simp
  | cons c rest ih =>
    by_cases hc : p c = true
    · simpa [List.takeWhile_cons, hc] using Nat.succ_le_succ ih
    · simp [List.takeWhile_cons, hc]

theorem scanFirst_exists {α : Type} (m : Str → Option α) (s : Str) (a : α)
    (h : scanFirst m s = some a) : ∃ n, m (s.drop n) = some a := by
  induction s with
  | nil => exact ⟨0, h⟩
  | cons c rest ih =>
    cases hm : m (c :: rest) with
    | some b =>
      simp only [scanFirst, hm] at h
      exact ⟨0, by rw [List.drop_zero, hm, h]⟩
    | none =>
      simp only [scanFirst, hm] at h
      obtain ⟨n, hn⟩ := ih h
      exact ⟨n + 1, by simpa using hn⟩

theorem altsCI_exists {α : Type} (lits : List Str) (s : Str) (cont : Str → Option α) (a : α)
    (h : altsCI lits s cont = some a) :
    ∃ l, l ∈ lits ∧ isPrefixCIB l s = true ∧ cont (s.drop l.length) = some a := by
  induction lits with
  | nil => simp [altsCI] at h
  | cons l ls ih =>
    by_cases hpre : isPrefixCIB l s = true
    · cases hc : cont (s.drop l.length) with
      | some b =>
        simp only [altsCI, stripLitCI, if_pos hpre, hc, Option.some.injEq] at h
        exact ⟨l, by simp, hpre, by rw [hc, h]⟩
      | none =>
        simp only [altsCI, stripLitCI, if_pos hpre, hc] at h
        obtain ⟨l', hl', hp', hc'⟩ := ih h
        exact ⟨l', by simp [hl'], hp', hc'⟩
    · simp only [altsCI, stripLitCI, if_neg hpre] at h
      obtain ⟨l', hl', hp', hc'⟩ := ih h
      exact ⟨l', by simp [hl'], hp', hc'⟩

theorem isPrefixCIB_length : ∀ {p s : Str}, isPrefixCIB p s = true → p.length ≤ s.length
  | [], _, _ => by simp
  | _ :: _, [], h => by simp [isPrefixCIB] at h
  | p :: ps, c :: cs, h => by
    simp only [isPrefixCIB, Bool.and_eq_true] at h
    simpa using Nat.succ_le_succ (isPrefixCIB_length h.2)

theorem isPrefixCIB_lower : ∀ {p s : Str}, isPrefixCIB p s = true →
    lowerStr (s.take p.length) = lowerStr p
  | [], s, _ => by simp [lowerStr]
  | _ :: _, [], h => by simp [isPrefixCIB] at h
  | p :: ps, c :: cs, h => by
    simp only [isPrefixCIB, Bool.and_eq_true, beq_iff_eq] at h
    show lowerStr (c :: cs.take ps.length) = lowerStr (p :: ps)
    rw [lowerStr_cons, lowerStr_cons, ← h.1, isPrefixCIB_lower h.2]

theorem occursIn_append (p a b : Str) (h : occursIn p b = true) :
    occursIn p (a ++ b) = true := by
  induction a with
  | nil => simpa using h
  | cons x a' ih =>
    simp only [List.cons_append, occursIn, Bool.or_eq_true]
    exact Or.inr ih

/-- Whatever `claimGrantedAt` matches ends with one of the grant/deny
words, so the matched span always contains "granted" or "denied"
case-insensitively. -/
theorem claimGrantedAt_contains (t m : Str) (h : claimGrantedAt t = some m) :
    testCI m "granted" = true ∨ testCI m "denied" = true := by
  obtain ⟨l, _, hlpre, hcont⟩ := altsCI_exists _ _ _ _ h
  obtain ⟨k, hk, hinner⟩ := List.exists_of_findSome?_eq_some hcont
  obtain ⟨w, hw, hwpre, hwcont⟩ := altsCI_exists _ _ _ _ hinner
  simp only [Option.some.injEq] at hwcont
  have hL : l.length ≤ t.length := isPrefixCIB_length hlpre
  have hk' : k ≤ (t.drop l.length).length := by
    rw [List.mem_reverse, List.mem_range] at hk
    calc k ≤ min 100 ((t.drop l.length).takeWhile notNL).length := Nat.lt_succ_iff.mp hk
    _ ≤ ((t.drop l.length).takeWhile notNL).length := Nat.min_le_right _ _
    _ ≤ (t.drop l.length).length := takeWhile_length_le _ _
  have hW : w.length ≤ ((t.drop l.length).drop k).length := isPrefixCIB_length hwpre
  rw [List.length_drop] at hk'
  rw [List.drop_drop, List.length_drop] at hW
  have hidx : t.length - (((t.drop l.length).drop k).drop w.length).length
      = (l.length + k) + w.length := by
    rw [List.drop_drop, List.drop_drop, List.length_drop]
    omega
  have hm : m = t.take ((l.length + k) + w.length) := by rw [← hwcont, hidx]
  have hsplit : m = t.take (l.length + k) ++ ((t.drop (l.length + k)).take w.length) := by
    rw [hm, List.take_add]
  have hlow : lowerStr ((t.drop (l.length + k)).take w.length) = lowerStr w := by
    have : (t.drop l.length).drop k = t.drop (l.length + k) := List.drop_drop _ _ _
    rw [← this]
    exact isPrefixCIB_lower hwpre
  have hmw : lowerStr m = lowerStr (t.take (l.length + k)) ++ lowerStr w := by
    rw [hsplit, lowerStr_append, hlow]
  have hend : occursIn (lit "granted") (lowerStr w) = true ∨
      occursIn (lit "denied") (lowerStr w) = true := by
    simp only [grantWords, List.mem_cons, List.not_mem_nil, or_false] at hw
    rcases hw with h' | h' | h' | h' | h' | h' | h' | h' | h' | h' <;>
      (subst h'; first | exact Or.inl (by decide) | exact Or.inr (by decide))
  have egr : lowerStr (lit "granted") = lit "granted" := by decide
  have ede : lowerStr (lit "denied") = lit "denied" := by decide
  rcases hend with h' | h'
  · exact Or.inl (by
      show occursIn (lowerStr (lit "granted")) (lowerStr m) = true
      rw [egr, hmw]
      exact occursIn_append _ _ _ h')
  · exact Or.inr (by
      show occursIn (lowerStr (lit "denied")) (lowerStr m) = true
      rw [ede, hmw]
      exact occursIn_append _ _ _ h')

theorem claimGrantedMatch_contains (s m : Str) (h : claimGrantedMatch s = some m) :
    testCI m "granted" = true ∨ testCI m "denied" = true := by
  obtain ⟨n, hn⟩ := scanFirst_exists _ _ _ h
  exact claimGrantedAt_contains _ _ hn

theorem computeRecommendations_spec (s : Str) :
    computeRecommendations s ≠ [] ∧ (computeRecommendations s).length ≤ 6 := by
  simp only [computeRecommendations]
  generalize ordersRecs s = r0
  generalize (if r0.length < 3 then remediesAppend s r0 else r0) = r1
  generalize (if r1.length = 0 then actionRecs s else r1) = r2
  by_cases h2 : r2.length = 0
  · rw [if_pos h2]
    exact ⟨by decide, by decide⟩
  · rw [if_neg h2]
    constructor
    · rw [Ne, List.take_eq_nil_iff]
      rintro (h | h)
      · cases h
      · rw [h] at h2; exact h2 rfl
    · rw [List.length_take]
      exact Nat.min_le_left _ _

theorem computeRecommendations_default (s : Str) (h0 : ordersRecs s = [])
    (h1 : remediesAppend s [] = []) (h2 : actionRecs s = []) :
    computeRecommendations s = defaultRecommendations := by
  simp only [computeRecommendations, h0, h1, h2, List.length_nil, Nat.zero_lt_succ,
    if_pos, if_true]
  decide

/-- The push of one candidate entry that skips entries already present
preserves the absence of duplicates. -/
theorem dedupPush_nodup (acc : List Str) (c : Str) (h : acc.Nodup) (b : Bool) :
    (if b && !(acc.contains c) then acc ++ [c] else acc).Nodup := by
  by_cases hb : (b && !(acc.contains c)) = true
  · rw [if_pos hb]
    have hnc : acc.contains c = false := by
      rcases Bool.and_eq_true _ _ |>.mp hb with ⟨_, hn⟩
      rwa [Bool.not_eq_true'] at hn
    have hmem : c ∉ acc := by
      intro hm
      have hc : acc.contains c = true := List.elem_iff.mpr hm
      rw [hc] at hnc
      exact Bool.noConfusion hnc
    simpa [← List.concat_eq_append] using List.Nodup.concat hmem h
  · rw [if_neg hb]; exact h

theorem foldl_dedupPush_nodup (f : Str → Str) :
    ∀ (items : List Str) (acc : List Str), acc.Nodup →
    (items.foldl (fun a it =>
        let cleaned := f it
        if 10 < cleaned.length && !(a.contains cleaned) then a ++ [cleaned] else a)
      acc).Nodup := by
  intro items
  induction items with
  | nil => intro acc h; exact h
  | cons it its ih =>
    intro acc h
    rw [List.foldl_cons]
    exact ih _ (dedupPush_nodup acc (f it) h _)

theorem remediesAppend_nodup (s : Str) (recs : List Str) (h : recs.Nodup) :
    (remediesAppend s recs).Nodup := by
  rw [remediesAppend]
  cases remediesMatch s with
  | none => exact h
  | some body => exact foldl_dedupPush_nodup (fun it => trimStr (stripMarker it)) _ recs h

-- Claim theorems -------------------------------------------------------------

/-- C1: for every narrative text whose length is at most 100 characters,
`parseVerdictFromResult` (the spec's `synthesize`) returns exactly the
canonical fallback `VerdictResult`: verdict `"Further Review Required"`,
the fixed fallback reasoning sentence, the canonical 5-item
recommendation list, and the requires-human-review confidence label. -/
theorem C1_fallback_gate (s : Str) (h : s.length ≤ 100) :
    parseVerdictFromResult s = fallbackVerdictResult ∧
    (parseVerdictFromResult s).verdict = lit "Further Review Required" ∧
    (parseVerdictFromResult s).reasoning = lit "The AI analysis has been completed. The dispute involves complex legal issues that require detailed examination of the submitted documents. Both parties have presented their positions, and a thorough evaluation of evidence, contractual obligations, and applicable laws is needed." ∧
    (parseVerdictFromResult s).recommendations =
      [lit "Conduct detailed review of all submitted evidence",
       lit "Verify authenticity of documents",
       lit "Consider mediation or settlement options",
       lit "Consult legal precedents for similar cases",
       lit "Ensure compliance with jurisdictional requirements"] ∧
    (parseVerdictFromResult s).confidence = lit "Requires Human Expert Review" := by
  have hn : ¬ (100 < s.length) := by omega
  have he : parseVerdictFromResult s = fallbackVerdictResult := by
    rw [parseVerdictFromResult, if_neg hn]
  exact ⟨he, by rw [he]; rfl, by rw [he]; rfl, by rw [he]; rfl, by rw [he]; rfl⟩

theorem C1_fallback_gate_witness :
    (lit "Short text.").length ≤ 100 ∧
    parseVerdictFromResult (lit "Short text.") = fallbackVerdictResult :=
  ⟨by decide, (C1_fallback_gate (lit "Short text.") (by decide)).1⟩

set_option maxRecDepth 100000 in
/-- C2 counterexample: a 50-character text contains both a court-finds
sentence and a rule-in-favor sentence, yet the verdict is the fallback
`"Further Review Required"`, not the court-finds sentence — the claim as
stated, quantified over all such texts, fails below the fallback gate. -/
theorem C2_short_counterexample :
    courtFindsMatch shortBothNarrative = some (lit "The court finds for Acme.") ∧
    (ruleInFavorMatch shortBothNarrative).isSome = true ∧
    (parseVerdictFromResult shortBothNarrative).verdict ≠ lit "The court finds for Acme." ∧
    (parseVerdictFromResult shortBothNarrative).verdict = lit "Further Review Required" := by
  decide

/-- C2 (amended): for every narrative text longer than 100 characters on
which the court-finds pattern matches (match `m`) and the rule-in-favor
pattern also matches, the verdict is the trimmed court-finds match `m` —
priority 1 beats priority 2 regardless of the positions of the two
matches. -/
theorem C2_courtFinds_priority (s m : Str) (hlen : 100 < s.length)
    (hcf : courtFindsMatch s = some m) (_hrf : (ruleInFavorMatch s).isSome = true) :
    (parseVerdictFromResult s).verdict = trimStr m := by
  rw [parseVerdictFromResult, if_pos hlen]
  show computeVerdict s = trimStr m
  simp only [computeVerdict, hcf]

set_option maxRecDepth 100000 in
theorem C2_courtFinds_priority_witness :
    (parseVerdictFromResult courtRuleNarrative).verdict =
      trimStr (lit "the court finds that the agreement was breached.") :=
  C2_courtFinds_priority courtRuleNarrative
    (lit "the court finds that the agreement was breached.")
    (by decide) (by decide) (by decide)

set_option maxRecDepth 100000 in
/-- C3 counterexample: Scenario A's input has only 88 characters, so the
fallback gate fires and the verdict is `"Further Review Required"` — it
does not begin with "The court finds". -/
theorem C3_scenarioA_counterexample :
    scenarioA.length = 88 ∧
    isPrefixB (lit "The court finds") (parseVerdictFromResult scenarioA).verdict = false ∧
    (parseVerdictFromResult scenarioA).verdict = lit "Further Review Required" := by
  decide

set_option maxRecDepth 100000 in
/-- C3 (amended): on Scenario A's exact input the fallback gate yields
`"Further Review Required"`; once the same sentence sits in a narrative
longer than 100 characters, the verdict is exactly that court-finds
sentence (in particular it begins with "The court finds" and ends with
"breached the agreement and orders payment of damages."). -/
theorem C3_scenarioA_gated :
    (parseVerdictFromResult scenarioA).verdict = lit "Further Review Required" ∧
    (parseVerdictFromResult scenarioAPadded).verdict = scenarioA ∧
    isPrefixB (lit "The court finds") (parseVerdictFromResult scenarioAPadded).verdict = true := by
  decide

/-- C4: when the grant/deny pattern is the highest-priority match (court
finds and rule-in-favor both failed) with matched span `m`, the verdict
is the corresponding `"Claims ..."` prefix followed by the first 100
characters of the span (trimmed), the denial containment check taking
precedence over the granted containment when both words occur; the span
always contains "granted" or "denied" case-insensitively. -/
theorem C4_claimGranted_classification (s m : Str) (hlen : 100 < s.length)
    (hcf : courtFindsMatch s = none) (hrf : ruleInFavorMatch s = none)
    (hcg : claimGrantedMatch s = some m) :
    ((parseVerdictFromResult s).verdict =
      if testCI m "denied" then lit "Claims DENIED - " ++ trimStr (m.take 100)
      else lit "Claims GRANTED - " ++ trimStr (m.take 100)) ∧
    (testCI m "granted" = true ∨ testCI m "denied" = true) := by
  have hgd := claimGrantedMatch_contains s m hcg
  refine ⟨?_, hgd⟩
  rw [parseVerdictFromResult, if_pos hlen]
  show computeVerdict s = _
  simp only [computeVerdict, hcf, hrf, hcg]
  by_cases hd : testCI m "denied" = true
  · have h2 : testCI m "DENIED" = true := by
      have e : lowerStr (lit "DENIED") = lowerStr (lit "denied") := by decide
      show occursIn (lowerStr (lit "DENIED")) (lowerStr m) = true
      rw [e]; exact hd
    simp [hd, h2]
  · have hg : testCI m "granted" = true := hgd.resolve_right hd
    have h1 : testCI m "GRANTED" = true := by
      have e : lowerStr (lit "GRANTED") = lowerStr (lit "granted") := by decide
      show occursIn (lowerStr (lit "GRANTED")) (lowerStr m) = true
      rw [e]; exact hg
    simp [hd, h1]

set_option maxRecDepth 100000 in
theorem C4_claimGranted_classification_witness :
    (parseVerdictFromResult claimsDeniedNarrative).verdict =
      lit "Claims DENIED - claims are denied" := by
  have h := C4_claimGranted_classification claimsDeniedNarrative (lit "claims are denied")
    (by decide) (by decide) (by decide) (by decide)
  rw [h.1]
  decide

/-- C5: for every input the recommendations list is non-empty with at
most 6 items; and whenever the input passes the fallback gate but the
Orders pass, the Remedies pass (from an empty list) and the action-verb
pass all produce no entry, the list is exactly the canonical 4-item
default list. -/
theorem C5_recommendations_bounds (s : Str) :
    ((parseVerdictFromResult s).recommendations ≠ [] ∧
      (parseVerdictFromResult s).recommendations.length ≤ 6) ∧
    (100 < s.length → ordersRecs s = [] → remediesAppend s [] = [] → actionRecs s = [] →
      (parseVerdictFromResult s).recommendations = defaultRecommendations) := by
  by_cases hlen : 100 < s.length
  · have hr : (parseVerdictFromResult s).recommendations = computeRecommendations s := by
      rw [parseVerdictFromResult, if_pos hlen]
    refine ⟨⟨?_, ?_⟩, fun _ h0 h1 h2 => ?_⟩
    · rw [hr]; exact (computeRecommendations_spec s).1
    · rw [hr]; exact (computeRecommendations_spec s).2
    · rw [hr]; exact computeRecommendations_default s h0 h1 h2
  · have hr : parseVerdictFromResult s = fallbackVerdictResult := by
      rw [parseVerdictFromResult, if_neg hlen]
    exact ⟨⟨by rw [hr]; decide, by rw [hr]; decide⟩, fun h' => absurd h' hlen⟩

set_option maxRecDepth 100000 in
theorem C5_recommendations_bounds_witness :
    (parseVerdictFromResult plainNarrative).recommendations = defaultRecommendations ∧
    (parseVerdictFromResult plainNarrative).recommendations ≠ [] ∧
    (parseVerdictFromResult plainNarrative).recommendations.length ≤ 6 := by
  have h := C5_recommendations_bounds plainNarrative
  exact ⟨h.2 (by decide) (by decide) (by decide) (by decide), h.1.1, h.1.2⟩

set_option maxRecDepth 100000 in
/-- C6 counterexample: a narrative whose Orders section repeats a bullet
yields a recommendations list with a literal duplicate — the Orders pass
pushes bullets without any dedup check. -/
theorem C6_duplicates_counterexample :
    (parseVerdictFromResult ordersDupNarrative).recommendations =
      [lit "Defendant shall pay the plaintiff promptly",
       lit "Defendant shall pay the plaintiff promptly"] ∧
    ¬ (parseVerdictFromResult ordersDupNarrative).recommendations.Nodup := by
  decide

/-- C6 (amended): only the Remedies pass deduplicates — it never adds an
entry already present, so it preserves the absence of duplicates — and
the fallback and default recommendation lists are duplicate-free; the
Orders pass and the action-verb pass push entries without any
deduplication, so the final list may contain duplicates. -/
theorem C6_remedies_dedup (s : Str) (recs : List Str) (h : recs.Nodup) :
    (remediesAppend s recs).Nodup ∧
    fallbackVerdictResult.recommendations.Nodup ∧
    defaultRecommendations.Nodup :=
  ⟨remediesAppend_nodup s recs h, by decide, by decide⟩

set_option maxRecDepth 100000 in
theorem C6_remedies_dedup_witness :
    List.Nodup ([] : List Str) ∧ (remediesAppend remediesDupNarrative []).Nodup :=
  ⟨by decide, (C6_remedies_dedup remediesDupNarrative [] (by decide)).1⟩

set_option maxRecDepth 100000 in
/-- C7 counterexample: below the fallback gate the reasoning field is
the fixed fallback sentence, not the input narrative. -/
theorem C7_reasoning_counterexample :
    (parseVerdictFromResult shortNarrative).reasoning ≠ shortNarrative := by
  decide

/-- C7 (amended): for every narrative text longer than 100 characters,
the reasoning field is the input narrative verbatim — never summarized,
never truncated; texts at or below 100 characters instead receive the
fixed fallback reasoning sentence. -/
theorem C7_reasoning_verbatim (s : Str) (h : 100 < s.length) :
    (parseVerdictFromResult s).reasoning = s := by
  rw [parseVerdictFromResult, if_pos h]

set_option maxRecDepth 100000 in
theorem C7_reasoning_verbatim_witness :
    100 < plainNarrative.length ∧
    (parseVerdictFromResult plainNarrative).reasoning = plainNarrative :=
  ⟨by decide, C7_reasoning_verbatim plainNarrative (by decide)⟩

set_option maxRecDepth 100000 in
/-- C8 counterexample: on Scenario C's exact single-line text the party
patterns find nothing — each requires a newline, "vs.", "v." or comma
terminator after the captured name, and none is reachable here — so
`parties` is empty and contains neither "Acme Corp" nor "Beta LLC". -/
theorem C8_scenarioC_counterexample :
    (analyzeLegalDocument scenarioC).parties = [] ∧
    ¬ lit "Acme Corp" ∈ (analyzeLegalDocument scenarioC).parties ∧
    ¬ lit "Beta LLC" ∈ (analyzeLegalDocument scenarioC).parties := by
  decide

set_option maxRecDepth 100000 in
/-- C8 (amended): on Scenario C's text `analyzeLegalDocument` returns
documentType `"Contract/Agreement"` and a claims list whose single entry
begins with "Beta breached", but an empty parties list; with
newline-terminated party labels the same text yields parties
`["Acme Corp", "Beta LLC"]`. -/
theorem C8_scenarioC_analysis :
    (analyzeLegalDocument scenarioC).documentType = lit "Contract/Agreement" ∧
    (analyzeLegalDocument scenarioC).claims =
      [lit "Beta breached the supply contract causing $50,000 in damages."] ∧
    isPrefixB (lit "Beta breached")
      (lit "Beta breached the supply contract causing $50,000 in damages.") = true ∧
    (analyzeLegalDocument scenarioC).parties = [] ∧
    (analyzeLegalDocument scenarioCNewlines).parties = [lit "Acme Corp", lit "Beta LLC"] := by
  decide

set_option maxRecDepth 100000 in
/-- C9: on the empty document text `analyzeLegalDocument` returns the
General document type with all four lists empty; the embedding is a
total function, so no error is possible. -/
theorem C9_empty_document :
    analyzeLegalDocument [] =
      { documentType := lit "General Legal Document", parties := [], keyPoints := [],
        evidence := [], claims := [] } := by
  decide
